import Mathlib

/-!
Shallow embedding of `src/test/audio_to_beats.py` (audio → step-sequencer
pattern converter).  Pure numeric values are modelled over `ℚ` (Python
floats), machine integers over `ℕ`/`ℤ`.  Numeric results of the external
`librosa`/`scipy` library calls that are deterministic functions of the
audio (the dB-scaled constant-Q matrix `C_db`, the duration, the tempo
estimate) are taken as explicit inputs of the embedded functions, exactly
at the boundary where the repository's own logic starts.
-/

namespace AudioToBeats

/-!
Rational arithmetic.  The library's `Rat.add`/`sub`/`mul`/`inv` are
`@[irreducible]`, so the kernel cannot evaluate them on concrete inputs.
The embedding therefore computes with the following wrappers, which build
the result directly through `mkRat`/`Rat.divInt`; the `_eq` lemmas prove
them extensionally equal to the standard field operations on `ℚ`, so every
theorem is a statement about ordinary rational arithmetic.
-/

/-- Executable addition on `ℚ` (equal to `+` by `qadd_eq`). -/
def qadd (a b : ℚ) : ℚ := mkRat (a.num * b.den + b.num * a.den) (a.den * b.den)

/-- Executable subtraction on `ℚ` (equal to `-` by `qsub_eq`). -/
def qsub (a b : ℚ) : ℚ := mkRat (a.num * b.den - b.num * a.den) (a.den * b.den)

/-- Executable multiplication on `ℚ` (equal to `*` by `qmul_eq`). -/
def qmul (a b : ℚ) : ℚ := mkRat (a.num * b.num) (a.den * b.den)

/-- Executable division on `ℚ` (equal to `/` by `qdiv_eq`). -/
def qdiv (a b : ℚ) : ℚ := Rat.divInt (a.num * b.den) (a.den * b.num)

theorem qadd_eq (a b : ℚ) : qadd a b = a + b := (Rat.add_def' a b).symm

theorem qsub_eq (a b : ℚ) : qsub a b = a - b := (Rat.sub_def' a b).symm

theorem qmul_eq (a b : ℚ) : qmul a b = a * b := by
  rw [qmul, Rat.mul_def, Rat.normalize_eq_mkRat]

theorem qdiv_eq (a b : ℚ) : qdiv a b = a / b := by
  rcases eq_or_ne b.num 0 with h | h
  · have hb : b = 0 := by rwa [Rat.num_eq_zero] at h
    simp [qdiv, hb, Rat.divInt_zero, h]
  · rw [qdiv, Rat.div_def, Rat.inv_def]
    conv_rhs => rw [← Rat.divInt_self a]
    rw [Rat.divInt_mul_divInt _ _ (by exact_mod_cast a.den_nz) h]

/-- Executable sum of a list of rationals (equal to `List.sum` by
`qsum_eq`). -/
def qsum : List ℚ → ℚ
  | [] => 0
  | a :: l => qadd a (qsum l)

theorem qsum_eq : ∀ l : List ℚ, qsum l = l.sum
  | [] => rfl
  | a :: l => by rw [qsum, qadd_eq, qsum_eq l, List.sum_cons]

/-- Python's `round` to an integer: round-half-to-even (banker's rounding),
as applied by `round(tempo)` in `build_track_data`. -/
def pyRoundHalfEven (q : ℚ) : ℤ :=
  let f : ℤ := ⌊q⌋
  let r : ℚ := qsub q (f : ℚ)
  if r < mkRat 1 2 then f
  else if mkRat 1 2 < r then f + 1
  else if f % 2 = 0 then f else f + 1

/-- Python's `round(x, 1)` (one decimal digit, half-to-even), used for the
track volume.  Binary floating-point representation artifacts are abstracted
away: we round the exact rational. -/
def pyRound1 (q : ℚ) : ℚ :=
  qdiv (pyRoundHalfEven (qmul q 10) : ℚ) 10

/-- `np.mean` over a list of magnitudes.  In the source the list is never
empty when this is reached; on `[]` rational division by zero yields `0`. -/
def pyMean (l : List ℚ) : ℚ := qdiv (qsum l) ((l.length : ℕ) : ℚ)

/-- The module-level `PIANO_NOTES` constant: the 88 piano keys, C8 down to
A0, spelled with the ASCII sharp sign `#`. -/
def PIANO_NOTES : List String := [
  "C8", "B7", "A#7", "A7", "G#7", "G7", "F#7", "F7", "E7", "D#7", "D7", "C#7",
  "C7", "B6", "A#6", "A6", "G#6", "G6", "F#6", "F6", "E6", "D#6", "D6", "C#6",
  "C6", "B5", "A#5", "A5", "G#5", "G5", "F#5", "F5", "E5", "D#5", "D5", "C#5",
  "C5", "B4", "A#4", "A4", "G#4", "G4", "F#4", "F4", "E4", "D#4", "D4", "C#4",
  "C4", "B3", "A#3", "A3", "G#3", "G3", "F#3", "F3", "E3", "D#3", "D3", "C#3",
  "C3", "B2", "A#2", "A2", "G#2", "G2", "F#2", "F2", "E2", "D#2", "D2", "C#2",
  "C2", "B1", "A#1", "A1", "G#1", "G1", "F#1", "F1", "E1", "D#1", "D1", "C#1",
  "C1", "B0", "A#0", "A0"]

/-- Pitch-class spellings produced by `librosa.hz_to_note` /
`librosa.midi_to_note`: sharps use the Unicode sign `♯` (U+266F), not the
ASCII `#` used by `PIANO_NOTES`. -/
def LIBROSA_PITCH_CLASS : List String :=
  ["C", "C♯", "D", "D♯", "E", "F", "F♯", "G", "G♯", "A", "A♯", "B"]

/-- `librosa.midi_to_note` on an integral MIDI number (octave = midi/12 - 1,
pitch class = midi mod 12, Unicode sharp spelling). -/
def midiToNoteUnicode (m : ℕ) : String :=
  LIBROSA_PITCH_CLASS.getD (m % 12) "" ++ toString (m / 12 - 1)

/-- The note name the librosa analysis path records for CQT bin `k`:
`librosa.hz_to_note(librosa.cqt_frequencies(n_bins=88, fmin=A0)[k])`.
Bin `k` sits exactly `k` semitones above A0 (MIDI 21), and `hz_to_note`
rounds the exact bin frequency back to MIDI `21 + k` before naming it. -/
def binNote (k : ℕ) : String := midiToNoteUnicode (21 + k)

/-- `librosa.note_to_midi` as used by `build_track_data`.  There it is only
ever applied to elements of `PIANO_NOTES`, so we model it by position in
that table (`PIANO_NOTES[i]` is MIDI `108 - i`); unknown names yield `none`
(the `try/except` path in the source). -/
def note_to_midi (n : String) : Option ℕ :=
  (PIANO_NOTES.findIdx? (fun x => x = n)).map (fun i => 108 - i)

/-- `AudioAnalysisConfig`. -/
structure AudioAnalysisConfig where
  method : String
  bpm_override : Option ℚ
  max_steps : ℕ
  threshold_db : ℚ
  min_note_duration : ℚ
  use_harmonic_enhancement : Bool
  hop_length : ℕ
deriving DecidableEq, Repr

/-- The default configuration (`method='librosa'`, `max_steps=256`,
`threshold_db=40`, `hop_length=512`). -/
def defaultConfig : AudioAnalysisConfig :=
  { method := "librosa", bpm_override := none, max_steps := 256,
    threshold_db := 40, min_note_duration := mkRat 1 10,
    use_harmonic_enhancement := true, hop_length := 512 }

/-- `AudioAnalysisConfig.validate`.  The two module-level availability
booleans (`BASIC_PITCH_AVAILABLE`, `POP2PIANO_AVAILABLE`) are passed
explicitly.  Raising is modelled as `Except.error`. -/
def validate (cfg : AudioAnalysisConfig) (basicPitchAvailable pop2pianoAvailable : Bool) :
    Except String Unit :=
  if cfg.method ∉ (["librosa", "basic_pitch", "pop2piano"] : List String) then
    .error ("Invalid method: " ++ cfg.method)
  else if cfg.method = "basic_pitch" ∧ basicPitchAvailable = false then
    .error "Basic Pitch is not installed"
  else if cfg.method = "pop2piano" ∧ pop2pianoAvailable = false then
    .error "Pop2Piano is not installed"
  else if cfg.max_steps < 16 ∨ 1024 < cfg.max_steps then
    .error "max_steps must be between 16 and 1024"
  else if cfg.threshold_db < 10 ∨ 80 < cfg.threshold_db then
    .error "threshold_db must be between 10 and 80"
  else .ok ()

/-- The non-override branch of `detect_tempo`: `librosa.beat.beat_track`
wrapped in `try/except`.  The library estimate (a deterministic function of
the audio) is taken as an `Except` input; on failure the source returns the
fixed default `120.0`. -/
def detectFromAudio (estimate : Except String ℚ) : ℚ :=
  match estimate with
  | .ok t => t
  | .error _ => 120

/-- `AudioToBeatsConverter.detect_tempo`.  The guard is Python truthiness
(`if self.config.bpm_override:`): `None` and `0.0` are falsy, any other
number is truthy and returned unchanged. -/
def detect_tempo (cfg : AudioAnalysisConfig) (estimate : Except String ℚ) : ℚ :=
  match cfg.bpm_override with
  | some b => if b = 0 then detectFromAudio estimate else b
  | none => detectFromAudio estimate

/-- Plateau scan of scipy's `_local_maxima_1d`: smallest `j ≥ start` with
`j ≥ iMax` or `x[j] ≠ v`.  `fuel` bounds the scan; the callers pass
`x.length`, which always suffices since `j` increases by one per call. -/
def plateauEnd (x : List ℚ) (v : ℚ) (j iMax : ℕ) : (fuel : ℕ) → ℕ
  | 0 => j
  | fuel + 1 =>
      if j < iMax ∧ x.getD j 0 = v then plateauEnd x v (j + 1) iMax fuel else j

/-- Main loop of scipy's `_local_maxima_1d` (the peak finder behind
`scipy.signal.find_peaks`): indices `1 ≤ i ≤ n-2` that start a maximal
plateau strictly above both flanking samples; the plateau midpoint is
reported.  `i` is the cursor, `iMax = n - 1`; fuel-driven rendition of the
`while i < i_max` loop (each iteration advances `i` by at least one, so
fuel `n` suffices). -/
def localMaximaAux (x : List ℚ) (iMax : ℕ) : (i : ℕ) → (fuel : ℕ) → List ℕ
  | _, 0 => []
  | i, fuel + 1 =>
      if i < iMax then
        if x.getD (i - 1) 0 < x.getD i 0 then
          let iAhead := plateauEnd x (x.getD i 0) (i + 1) iMax x.length
          if x.getD iAhead 0 < x.getD i 0 then
            ((i + (iAhead - 1)) / 2) :: localMaximaAux x iMax (iAhead + 1) fuel
          else
            localMaximaAux x iMax (i + 1) fuel
        else
          localMaximaAux x iMax (i + 1) fuel
      else []

/-- All local maxima of a 1-d signal, as scipy's `find_peaks` computes them
before any property filtering. -/
def localMaxima (x : List ℚ) : List ℕ :=
  localMaximaAux x (x.length - 1) 1 x.length

/-- `scipy.signal.find_peaks(x, height=h, distance=1)`: the local maxima
whose sample value is at least `h`.  `distance=1` is a no-op (distinct
indices are always at least one sample apart), so only the height filter
remains; scipy's height condition is inclusive (`h ≤ x[peak]`). -/
def findPeaks (x : List ℚ) (h : ℚ) : List ℕ :=
  (localMaxima x).filter (fun i => h ≤ x.getD i 0)

/-- One value of the `active_notes_data` dict: `{"steps": set(), "magnitudes": []}`.
The step set is a duplicate-free list (only membership is ever consumed). -/
structure ActivationData where
  steps : List ℕ
  magnitudes : List ℚ
deriving DecidableEq, Repr

/-- `active_notes_data`: a Python dict keyed by note-name strings, modelled
as an association list in insertion order. -/
abbrev ActivationMap := List (String × ActivationData)

/-- Dict lookup `active_notes_data.get(note)`. -/
def lookupAct : ActivationMap → String → Option ActivationData
  | [], _ => none
  | (k, d) :: rest, note => if k = note then some d else lookupAct rest note

/-- The dict update performed per recorded peak:
`active_notes_data[note]["steps"].add(step)` plus
`active_notes_data[note]["magnitudes"].append(mag)`, creating the entry
when absent. -/
def record : ActivationMap → String → ℕ → ℚ → ActivationMap
  | [], note, s, mag => [(note, ⟨[s], [mag]⟩)]
  | (k, d) :: rest, note, s, mag =>
      if k = note then
        (k, ⟨if s ∈ d.steps then d.steps else d.steps ++ [s],
             d.magnitudes ++ [mag]⟩) :: rest
      else
        (k, d) :: record rest note s mag

/-- The inner `for bin_idx in peaks` loop of `analyze_with_librosa`: each
peak bin is resolved to its librosa note name and recorded with the step's
spectrum value at that bin. -/
def recordPeaks (spectrum : List ℚ) (s : ℕ) (bins : List ℕ) (m : ActivationMap) :
    ActivationMap :=
  bins.foldl (fun m' b => record m' (binNote b) s (spectrum.getD b 0)) m

/-- Element-wise maximum over the frame slice `[a, b)` of the matrix
(`np.max(C_db[:, a:b], axis=1)`); frames are the matrix columns. -/
def sliceMax (frames : List (List ℚ)) (a b : ℕ) : List ℚ :=
  match (frames.drop a).take (b - a) with
  | [] => []
  | f :: fs => fs.foldl (fun acc g => List.zipWith max acc g) f

/-- `np.max(C_db)`: the global maximum entry of the matrix (`np.max` on an
empty array raises in numpy; the pipeline never reaches this with an empty
matrix, and we default to `0`). -/
def matMax (frames : List (List ℚ)) : ℚ := ((frames.flatMap id).max?).getD 0

/-- `step_duration = 60 / tempo / 4` (a sixteenth note). -/
def stepDuration (tempo : ℚ) : ℚ := qdiv (qdiv 60 tempo) 4

/-- `frames_per_step = step_duration * (sr / hop_length)`. -/
def framesPerStep (cfg : AudioAnalysisConfig) (tempo : ℚ) (sr : ℕ) : ℚ :=
  qmul (stepDuration tempo) (qdiv (sr : ℚ) (cfg.hop_length : ℚ))

/-- `start_frame = int(step * frames_per_step)` (truncation of a
non-negative float = floor). -/
def startFrame (cfg : AudioAnalysisConfig) (tempo : ℚ) (sr : ℕ) (s : ℕ) : ℕ :=
  (⌊qmul (s : ℚ) (framesPerStep cfg tempo sr)⌋).toNat

/-- `end_frame = int((step + 1) * frames_per_step)`. -/
def endFrame (cfg : AudioAnalysisConfig) (tempo : ℚ) (sr : ℕ) (s : ℕ) : ℕ :=
  (⌊qmul (qadd (s : ℚ) 1) (framesPerStep cfg tempo sr)⌋).toNat

/-- `target_steps = min(max_steps, ((total_steps + 15) // 16) * 16)` where
`total_steps = int(math.ceil(duration / step_duration))`. -/
def targetSteps (cfg : AudioAnalysisConfig) (duration tempo : ℚ) : ℕ :=
  let totalSteps : ℕ := (⌈qdiv duration (stepDuration tempo)⌉).toNat
  min cfg.max_steps (((totalSteps + 15) / 16) * 16)

/-- The spectrum the quantizer assigns to one step: the single frame at
`start_frame` when the range collapses, otherwise the max-pooled slice
`[start_frame, min(end_frame, nFrames))`. -/
def stepSpectrum (cfg : AudioAnalysisConfig) (frames : List (List ℚ)) (tempo : ℚ)
    (sr : ℕ) (s : ℕ) : List ℚ :=
  let a := startFrame cfg tempo sr s
  let b := endFrame cfg tempo sr s
  if a = b then frames.getD a [] else sliceMax frames a (min b frames.length)

/-- The `for step in range(target_steps)` loop with its
`if start_frame >= C_db.shape[1]: break`: exactly the prefix of step
indices whose start frame is inside the matrix is processed. -/
def processedSteps (cfg : AudioAnalysisConfig) (frames : List (List ℚ)) (tempo : ℚ)
    (sr : ℕ) (target : ℕ) : List ℕ :=
  (List.range target).takeWhile (fun s => startFrame cfg tempo sr s < frames.length)

/-- The whole activation-extraction loop of `analyze_with_librosa`: fold the
per-step peak recording over the processed steps, starting from the empty
dict. -/
def quantLoop (cfg : AudioAnalysisConfig) (frames : List (List ℚ)) (tempo : ℚ)
    (sr : ℕ) (cutoff : ℚ) (steps : List ℕ) (m : ActivationMap) : ActivationMap :=
  steps.foldl
    (fun m' s =>
      recordPeaks (stepSpectrum cfg frames tempo sr s) s
        (findPeaks (stepSpectrum cfg frames tempo sr s) cutoff) m') m

/-- Result dictionary of the analysis methods.  `threshold_db` is `some`
(the absolute dB cutoff) on the librosa path and `none` for the ML
back-ends, mirroring `analysis_result.get("threshold_db", ...)`. -/
structure AnalysisResult where
  tempo : ℚ
  target_steps : ℕ
  active_notes_data : ActivationMap
  step_duration : ℚ
  threshold_db : Option ℚ
deriving DecidableEq, Repr

/-- `AudioToBeatsConverter.analyze_with_librosa`.  Inputs `frames` (the
columns of `C_db = librosa.amplitude_to_db(C_harm, ref=np.max)`, each a
list of 88 per-bin dB values) and `duration` stand for the deterministic
librosa computations on the loaded audio; everything from the threshold
computation onward is the repository's own logic, embedded directly. -/
def analyze_with_librosa (cfg : AudioAnalysisConfig) (frames : List (List ℚ))
    (duration : ℚ) (sr : ℕ) (tempo : ℚ) : AnalysisResult :=
  let target := targetSteps cfg duration tempo
  let cutoff := qsub (matMax frames) cfg.threshold_db
  { tempo := tempo
    target_steps := target
    active_notes_data :=
      quantLoop cfg frames tempo sr cutoff (processedSteps cfg frames tempo sr target) []
    step_duration := stepDuration tempo
    threshold_db := some cutoff }

/-- The fixed `settings` object attached to every track. -/
structure TrackSettings where
  pitch : ℤ
  decay : ℚ
  attack : ℚ
  distortion : ℚ
  sustain : ℚ
  release : ℚ
  cutoff : ℚ
  resonance : ℚ
deriving DecidableEq, Repr, Inhabited

/-- One element of the output `tracks` list. -/
structure Track where
  id : String
  name : String
  type : String
  steps : List Bool
  mute : Bool
  solo : Bool
  volume : ℚ
  pan : ℚ
  settings : TrackSettings
  hidden : Bool
deriving DecidableEq, Repr, Inhabited

/-- The top-level output document. -/
structure Pattern where
  bpm : ℤ
  stepCount : ℕ
  tracks : List Track
deriving DecidableEq, Repr

/-- The pattern list one canonical note receives: `[False] * target_steps`,
then `pattern[s] = True` for every recorded step `s < target_steps`
(functional rendering: index `s` is true iff `s` is a recorded step). -/
def activeB (m : ActivationMap) (note : String) (s : ℕ) : Bool :=
  match lookupAct m note with
  | some d => d.steps.contains s
  | none => false

/-- The per-note body of the `for note in PIANO_NOTES` loop of
`build_track_data`: step pattern, visibility, volume (dB- or
amplitude-normalized, rounded to one decimal, clamped to `[-40, 0]`),
semitone offset from C4 (MIDI 60), and the fixed settings. -/
def buildTrack (cfg : AudioAnalysisConfig) (threshold_db : Option ℚ) (target : ℕ)
    (m : ActivationMap) (note : String) : Track :=
  let thr : ℚ := threshold_db.getD (-cfg.threshold_db)
  let semitones : ℤ :=
    match note_to_midi note with
    | some v => (v : ℤ) - 60
    | none => 0
  let settings : TrackSettings :=
    { pitch := semitones, decay := mkRat 1 2, attack := mkRat 1 100, distortion := 0,
      sustain := mkRat 3 10, release := mkRat 4 5, cutoff := 20000, resonance := 1 }
  match lookupAct m note with
  | none =>
      { id := "piano-" ++ note, name := note, type := "piano",
        steps := List.replicate target false, mute := false, solo := false,
        volume := -5, pan := 0, settings := settings, hidden := true }
  | some d =>
      let pattern := (List.range target).map (fun s => d.steps.contains s)
      let avgMag := pyMean d.magnitudes
      let rawVol : ℚ :=
        if thr < 0 then
          pyRound1 (qadd (-30) (qmul (qdiv (qsub avgMag thr) cfg.threshold_db) 30))
        else
          pyRound1 (qadd (-30) (qmul avgMag 30))
      let vol := max (-40) (min 0 rawVol)
      { id := "piano-" ++ note, name := note, type := "piano",
        steps := pattern, mute := false, solo := false,
        volume := vol, pan := 0, settings := settings, hidden := false }

/-- The fallback body: unhide a track whose note lies in MIDI 48–72
(C3 to C5); names that fail to parse are left untouched (`except: pass`). -/
def applyFallback (t : Track) : Track :=
  match note_to_midi t.name with
  | some v => if 48 ≤ v ∧ v ≤ 72 then { t with hidden := false } else t
  | none => t

/-- The `final_tracks` list as it stands after the 88-iteration build loop,
before the fallback check. -/
def builtTracks (cfg : AudioAnalysisConfig) (a : AnalysisResult) : List Track :=
  PIANO_NOTES.map (buildTrack cfg a.threshold_db a.target_steps a.active_notes_data)

/-- `AudioToBeatsConverter.build_track_data`: build the 88 tracks in
`PIANO_NOTES` order, apply the all-hidden visibility fallback, and assemble
the result with the tempo rounded Python-style. -/
def build_track_data (cfg : AudioAnalysisConfig) (a : AnalysisResult) : Pattern :=
  let tracks := builtTracks cfg a
  let tracks := if tracks.all (fun t => t.hidden) then tracks.map applyFallback else tracks
  { bpm := pyRoundHalfEven a.tempo, stepCount := a.target_steps, tracks := tracks }

/-- The deterministic data `load_audio` plus the librosa calls extract from
one audio file: the dB matrix columns, the duration, the sample rate and
the (fallible) tempo estimate. -/
structure AudioData where
  frames : List (List ℚ)
  duration : ℚ
  sr : ℕ
  tempoEstimate : Except String ℚ

/-- The conversion pipeline on the librosa path, as sequenced by
`AudioToBeatsConverter.__init__` + `convert`: configuration validation runs
at construction, before the audio is loaded (`load` is only inspected after
validation succeeds); then tempo detection, analysis, and track building. -/
def convert (cfg : AudioAnalysisConfig) (basicPitchAvailable pop2pianoAvailable : Bool)
    (load : Except String AudioData) : Except String Pattern :=
  match validate cfg basicPitchAvailable pop2pianoAvailable with
  | .error e => .error e
  | .ok _ =>
      match load with
      | .error e => .error e
      | .ok audio =>
          let tempo := detect_tempo cfg audio.tempoEstimate
          .ok (build_track_data cfg
            (analyze_with_librosa cfg audio.frames audio.duration audio.sr tempo))

/-- Total number of true steps summed across all tracks of a pattern. -/
def totalTrueSteps (p : Pattern) : ℕ :=
  (p.tracks.map (fun t => t.steps.count true)).sum

/-!  Characterization of the activation dict built by the quantizer loop. -/

/-- `s` is a recorded step for `note` in the activation dict `m`. -/
def memAct (m : ActivationMap) (note : String) (s : ℕ) : Prop :=
  ∃ d, lookupAct m note = some d ∧ s ∈ d.steps

theorem mem_addStep {s s' : ℕ} (steps : List ℕ) :
    s ∈ (if s' ∈ steps then steps else steps ++ [s']) ↔ s ∈ steps ∨ s = s' := by
  by_cases h : s' ∈ steps
  · simp only [if_pos h]
    constructor
    · exact fun hs => Or.inl hs
    · rintro (hs | rfl) <;> assumption
  · simp [if_neg h, List.mem_append]

theorem lookupAct_cons (k : String) (d : ActivationData) (m : ActivationMap) (note : String) :
    lookupAct ((k, d) :: m) note = if k = note then some d else lookupAct m note := rfl

theorem record_memAct (m : ActivationMap) (note' : String) (s' : ℕ) (mag : ℚ)
    (note : String) (s : ℕ) :
    memAct (record m note' s' mag) note s ↔ memAct m note s ∨ (note = note' ∧ s = s') := by
  induction m with
  | nil =>
      by_cases h : note' = note
      · subst h
        simp [record, memAct, lookupAct]
      · have h' : ¬(note = note') := fun e => h e.symm
        simp [record, memAct, lookupAct, h, h']
  | cons kd rest ih =>
      obtain ⟨k, d⟩ := kd
      by_cases hk : k = note'
      · subst hk
        by_cases hn : k = note
        · subst hn
          simp [record, memAct, lookupAct_cons, mem_addStep]
        · have hn' : ¬(note = k) := fun e => hn e.symm
          simp [record, memAct, lookupAct_cons, hn, hn']
      · have hrec : record ((k, d) :: rest) note' s' mag = (k, d) :: record rest note' s' mag := by
          simp [record, hk]
        by_cases hn : k = note
        · have hk' : ¬(note = note') := fun e => hk (hn.trans e)
          rw [hrec]
          simp [memAct, lookupAct_cons, hn, hk']
        · rw [hrec]
          simpa [memAct, lookupAct_cons, hn] using ih

theorem recordPeaks_cons (spectrum : List ℚ) (s' : ℕ) (b : ℕ) (bs : List ℕ)
    (m : ActivationMap) :
    recordPeaks spectrum s' (b :: bs) m
      = recordPeaks spectrum s' bs (record m (binNote b) s' (spectrum.getD b 0)) := rfl

theorem recordPeaks_memAct (spectrum : List ℚ) (s' : ℕ) (bins : List ℕ)
    (m : ActivationMap) (note : String) (s : ℕ) :
    memAct (recordPeaks spectrum s' bins m) note s ↔
      memAct m note s ∨ (s = s' ∧ ∃ b ∈ bins, binNote b = note) := by
  induction bins generalizing m with
  | nil => simp [recordPeaks]
  | cons b bs ih =>
      rw [recordPeaks_cons, ih, record_memAct]
      constructor
      · rintro ((h | ⟨rfl, rfl⟩) | ⟨rfl, b', hb', rfl⟩)
        · exact Or.inl h
        · exact Or.inr ⟨rfl, b, List.mem_cons_self b bs, rfl⟩
        · exact Or.inr ⟨rfl, b', List.mem_cons_of_mem b hb', rfl⟩
      · rintro (h | ⟨rfl, b', hb', rfl⟩)
        · exact Or.inl (Or.inl h)
        · rcases List.mem_cons.1 hb' with rfl | hb'
          · exact Or.inl (Or.inr ⟨rfl, rfl⟩)
          · exact Or.inr ⟨rfl, b', hb', rfl⟩

theorem quantLoop_cons (cfg : AudioAnalysisConfig) (frames : List (List ℚ)) (tempo : ℚ)
    (sr : ℕ) (cutoff : ℚ) (s₀ : ℕ) (L : List ℕ) (m : ActivationMap) :
    quantLoop cfg frames tempo sr cutoff (s₀ :: L) m
      = quantLoop cfg frames tempo sr cutoff L
          (recordPeaks (stepSpectrum cfg frames tempo sr s₀) s₀
            (findPeaks (stepSpectrum cfg frames tempo sr s₀) cutoff) m) := rfl

theorem quantLoop_memAct (cfg : AudioAnalysisConfig) (frames : List (List ℚ)) (tempo : ℚ)
    (sr : ℕ) (cutoff : ℚ) (L : List ℕ) (m : ActivationMap) (note : String) (s : ℕ) :
    memAct (quantLoop cfg frames tempo sr cutoff L m) note s ↔
      memAct m note s ∨ ∃ s' ∈ L, s = s' ∧
        ∃ b ∈ findPeaks (stepSpectrum cfg frames tempo sr s') cutoff, binNote b = note := by
  induction L generalizing m with
  | nil => simp [quantLoop]
  | cons s₀ L ih =>
      rw [quantLoop_cons, ih, recordPeaks_memAct]
      constructor
      · rintro ((h | ⟨hs, hpk⟩) | ⟨s', hs', hs, hpk⟩)
        · exact Or.inl h
        · exact Or.inr ⟨s₀, List.mem_cons_self s₀ L, hs, hpk⟩
        · exact Or.inr ⟨s', List.mem_cons_of_mem s₀ hs', hs, hpk⟩
      · rintro (h | ⟨s', hs', hs, hpk⟩)
        · exact Or.inl (Or.inl h)
        · rcases List.mem_cons.1 hs' with h₀ | hmem
          · exact Or.inl (Or.inr ⟨hs.trans h₀, h₀ ▸ hpk⟩)
          · exact Or.inr ⟨s', hmem, hs, hpk⟩

theorem mem_findPeaks {x : List ℚ} {h : ℚ} {b : ℕ} :
    b ∈ findPeaks x h ↔ b ∈ localMaxima x ∧ h ≤ x.getD b 0 := by
  simp [findPeaks, List.mem_filter]

/-- Every magnitude stored in any entry of the dict is at least `c`
(also in entries shadowed by an earlier duplicate key, so the property is
preserved entry-wise by updates). -/
def magsGE (m : ActivationMap) (c : ℚ) : Prop :=
  ∀ e ∈ m, ∀ g ∈ e.2.magnitudes, c ≤ g

theorem lookupAct_mem {m : ActivationMap} {n : String} {d : ActivationData}
    (h : lookupAct m n = some d) : (n, d) ∈ m := by
  induction m with
  | nil => simp [lookupAct] at h
  | cons kd rest ih =>
      obtain ⟨k, d₀⟩ := kd
      rw [lookupAct_cons] at h
      by_cases hk : k = n
      · rw [if_pos hk] at h
        cases h
        exact hk ▸ List.mem_cons_self _ _
      · rw [if_neg hk] at h
        exact List.mem_cons_of_mem _ (ih h)

theorem magsGE_record {m : ActivationMap} {c : ℚ} (hm : magsGE m c) {mag : ℚ}
    (hmag : c ≤ mag) (note' : String) (s' : ℕ) :
    magsGE (record m note' s' mag) c := by
  induction m with
  | nil =>
      intro e he g hg
      rcases List.mem_singleton.1 he with rfl
      rcases List.mem_singleton.1 hg with rfl
      exact hmag
  | cons kd rest ih =>
      obtain ⟨k, d₀⟩ := kd
      have hhead : ∀ g ∈ d₀.magnitudes, c ≤ g := hm (k, d₀) (List.mem_cons_self _ _)
      have hrest : magsGE rest c := fun e he => hm e (List.mem_cons_of_mem _ he)
      by_cases hk : k = note'
      · intro e he g hg
        rw [record, if_pos hk] at he
        rcases List.mem_cons.1 he with rfl | he
        · rcases List.mem_append.1 hg with hg | hg
          · exact hhead g hg
          · rcases List.mem_singleton.1 hg with rfl
            exact hmag
        · exact hrest e he g hg
      · intro e he g hg
        rw [record, if_neg hk] at he
        rcases List.mem_cons.1 he with rfl | he
        · exact hhead g hg
        · exact ih hrest e he g hg

theorem magsGE_recordPeaks {spectrum : List ℚ} {c : ℚ} {bins : List ℕ}
    (hbins : ∀ b ∈ bins, c ≤ spectrum.getD b 0) {m : ActivationMap} (hm : magsGE m c)
    (s' : ℕ) : magsGE (recordPeaks spectrum s' bins m) c := by
  induction bins generalizing m with
  | nil => exact hm
  | cons b bs ih =>
      rw [recordPeaks_cons]
      exact ih (fun b' hb' => hbins b' (List.mem_cons_of_mem b hb'))
        (magsGE_record hm (hbins b (List.mem_cons_self b bs)) _ _)

theorem magsGE_quantLoop (cfg : AudioAnalysisConfig) (frames : List (List ℚ)) (tempo : ℚ)
    (sr : ℕ) (cutoff : ℚ) (L : List ℕ) {m : ActivationMap} (hm : magsGE m cutoff) :
    magsGE (quantLoop cfg frames tempo sr cutoff L m) cutoff := by
  induction L generalizing m with
  | nil => exact hm
  | cons s₀ L ih =>
      rw [quantLoop_cons]
      exact ih (magsGE_recordPeaks (fun b hb => (mem_findPeaks.1 hb).2) hm s₀)

/-!  Bridging the activation dict to the built tracks. -/

theorem activeB_iff {m : ActivationMap} {note : String} {s : ℕ} :
    activeB m note s = true ↔ memAct m note s := by
  cases h : lookupAct m note with
  | none => simp [activeB, memAct, h]
  | some d => simp [activeB, memAct, h, List.contains, List.elem_iff]

theorem buildTrack_steps (cfg : AudioAnalysisConfig) (thr : Option ℚ) (target : ℕ)
    (m : ActivationMap) (note : String) :
    (buildTrack cfg thr target m note).steps = (List.range target).map (activeB m note) := by
  cases h : lookupAct m note with
  | none =>
      simp only [buildTrack, h]
      rw [show ((List.range target).map (activeB m note))
            = (List.range target).map (fun _ => false) from
          List.map_congr_left (fun s _ => by simp [activeB, h]),
        List.map_const', List.length_range]
  | some d =>
      simp only [buildTrack, h]
      exact (List.map_congr_left (fun s _ => by simp [activeB, h])).symm

theorem applyFallback_steps (t : Track) : (applyFallback t).steps = t.steps := by
  unfold applyFallback
  split
  · split <;> rfl
  · rfl

theorem applyFallback_volume (t : Track) : (applyFallback t).volume = t.volume := by
  unfold applyFallback
  split
  · split <;> rfl
  · rfl

theorem applyFallback_name (t : Track) : (applyFallback t).name = t.name := by
  unfold applyFallback
  split
  · split <;> rfl
  · rfl

theorem countTrue_map_le {f g : ℕ → Bool} (h : ∀ s, f s = true → g s = true) (n : ℕ) :
    ((List.range n).map f).count true ≤ ((List.range n).map g).count true := by
  induction n with
  | zero => simp
  | succ n ih =>
      rw [List.range_succ, List.map_append, List.map_append,
        List.count_append, List.count_append]
      refine Nat.add_le_add ih ?_
      cases hf : f n with
      | false => simp [hf]
      | true => simp [hf, h n hf]

theorem sum_map_le {α : Type} (l : List α) (f g : α → ℕ) (h : ∀ a ∈ l, f a ≤ g a) :
    (l.map f).sum ≤ (l.map g).sum := by
  induction l with
  | nil => simp
  | cons a l ih =>
      simp only [List.map_cons, List.sum_cons]
      exact Nat.add_le_add (h a (List.mem_cons_self a l))
        (ih (fun a' ha' => h a' (List.mem_cons_of_mem a ha')))

/-- The total true-step count of the final pattern, expressed through the
activation dict: the fallback never changes a step sequence, so the count
is the same before and after it. -/
theorem totalTrueSteps_build (cfg : AudioAnalysisConfig) (a : AnalysisResult) :
    totalTrueSteps (build_track_data cfg a)
      = (PIANO_NOTES.map (fun note =>
          ((List.range a.target_steps).map (activeB a.active_notes_data note)).count true)).sum := by
  rw [totalTrueSteps, build_track_data]
  by_cases hall : (builtTracks cfg a).all (fun t => t.hidden)
  · rw [if_pos hall, List.map_map, builtTracks, List.map_map]
    congr 1
    refine List.map_congr_left (fun note _ => ?_)
    simp only [Function.comp]
    rw [applyFallback_steps, buildTrack_steps]
  · rw [if_neg hall, builtTracks, List.map_map]
    congr 1
    refine List.map_congr_left (fun note _ => ?_)
    simp only [Function.comp]
    rw [buildTrack_steps]

/-- Membership in the activation dict produced by `analyze_with_librosa`:
exactly the processed steps at which some peak bin above the cutoff resolves
to the given note name. -/
theorem analyze_memAct (cfg : AudioAnalysisConfig) (frames : List (List ℚ))
    (duration : ℚ) (sr : ℕ) (tempo : ℚ) (note : String) (s : ℕ) :
    memAct (analyze_with_librosa cfg frames duration sr tempo).active_notes_data note s ↔
      s ∈ processedSteps cfg frames tempo sr (targetSteps cfg duration tempo) ∧
      ∃ b ∈ findPeaks (stepSpectrum cfg frames tempo sr s)
          (qsub (matMax frames) cfg.threshold_db), binNote b = note := by
  have base : ¬ memAct [] note s := by simp [memAct, lookupAct]
  rw [show (analyze_with_librosa cfg frames duration sr tempo).active_notes_data
        = quantLoop cfg frames tempo sr (qsub (matMax frames) cfg.threshold_db)
            (processedSteps cfg frames tempo sr (targetSteps cfg duration tempo)) [] from rfl,
    quantLoop_memAct]
  constructor
  · rintro (h | ⟨s', hs', hs, hpk⟩)
    · exact absurd h base
    · exact ⟨hs ▸ hs', hs ▸ hpk⟩
  · rintro ⟨hmem, hpk⟩
    exact Or.inr ⟨s, hmem, rfl, hpk⟩

theorem buildTrack_volume_range (cfg : AudioAnalysisConfig) (thr : Option ℚ) (target : ℕ)
    (m : ActivationMap) (note : String) :
    -40 ≤ (buildTrack cfg thr target m note).volume ∧
      (buildTrack cfg thr target m note).volume ≤ 0 := by
  cases h : lookupAct m note with
  | none =>
      simp only [buildTrack, h]
      norm_num
  | some d =>
      simp only [buildTrack, h]
      exact ⟨le_max_left _ _, max_le (by norm_num) (min_le_left _ _)⟩

/-- Every track of the final pattern is (up to the visibility fallback,
which changes neither steps nor volume) the track built for one of the 88
canonical notes. -/
theorem build_tracks_fields (cfg : AudioAnalysisConfig) (a : AnalysisResult) :
    ∀ t ∈ (build_track_data cfg a).tracks, ∃ note ∈ PIANO_NOTES,
      t.steps = (List.range a.target_steps).map (activeB a.active_notes_data note) ∧
      t.volume = (buildTrack cfg a.threshold_db a.target_steps a.active_notes_data note).volume := by
  intro t ht
  simp only [build_track_data] at ht
  by_cases hall : (builtTracks cfg a).all (fun t => t.hidden)
  · rw [if_pos hall, builtTracks] at ht
    rcases List.mem_map.1 ht with ⟨t₀, ht₀, rfl⟩
    rcases List.mem_map.1 ht₀ with ⟨note, hnote, rfl⟩
    refine ⟨note, hnote, ?_, applyFallback_volume _⟩
    rw [applyFallback_steps, buildTrack_steps]
  · rw [if_neg hall, builtTracks] at ht
    rcases List.mem_map.1 ht with ⟨note, hnote, rfl⟩
    exact ⟨note, hnote, buildTrack_steps cfg a.threshold_db a.target_steps
      a.active_notes_data note, rfl⟩

/-- The fallback band test `48 <= m <= 72` as a Boolean on note names. -/
def inFallbackBand (n : String) : Bool :=
  match note_to_midi n with
  | some v => decide (48 ≤ v ∧ v ≤ 72)
  | none => false

theorem inFallbackBand_iff (n : String) :
    inFallbackBand n = true ↔ ∃ v, note_to_midi n = some v ∧ 48 ≤ v ∧ v ≤ 72 := by
  cases h : note_to_midi n with
  | none => simp [inFallbackBand, h]
  | some v => simp [inFallbackBand, h]

/-- The fallback either leaves a track untouched or only flips its
`hidden` flag to `False`; no other field ever changes. -/
theorem applyFallback_cases (t : Track) :
    applyFallback t = t ∨ applyFallback t = { t with hidden := false } := by
  unfold applyFallback
  split
  · split
    · exact Or.inr rfl
    · exact Or.inl rfl
  · exact Or.inl rfl

theorem applyFallback_hidden_iff {t : Track} (h : t.hidden = true) :
    (applyFallback t).hidden = false ↔
      ∃ v, note_to_midi t.name = some v ∧ 48 ≤ v ∧ v ≤ 72 := by
  unfold applyFallback
  cases hm : note_to_midi t.name with
  | none => simp [h]
  | some v =>
      by_cases hband : 48 ≤ v ∧ v ≤ 72
      · simp [hband, hm]
      · simp only [if_neg hband]
        rw [h]
        simp only [Bool.true_eq_false, false_iff]
        rintro ⟨v', hv', hge, hle⟩
        cases hv'
        exact hband ⟨hge, hle⟩

theorem framesPerStep_nonneg (cfg : AudioAnalysisConfig) {tempo : ℚ} (ht : 0 ≤ tempo)
    (sr : ℕ) : 0 ≤ framesPerStep cfg tempo sr := by
  rw [framesPerStep, qmul_eq, qdiv_eq, stepDuration, qdiv_eq, qdiv_eq]
  have h1 : (0 : ℚ) ≤ 60 / tempo / 4 :=
    div_nonneg (div_nonneg (by norm_num) ht) (by norm_num)
  have h2 : (0 : ℚ) ≤ (sr : ℚ) / (cfg.hop_length : ℚ) :=
    div_nonneg (by positivity) (by positivity)
  exact mul_nonneg h1 h2

theorem startFrame_mono (cfg : AudioAnalysisConfig) {tempo : ℚ} (ht : 0 ≤ tempo)
    (sr : ℕ) {s₁ s₂ : ℕ} (h : s₁ ≤ s₂) :
    startFrame cfg tempo sr s₁ ≤ startFrame cfg tempo sr s₂ := by
  rw [startFrame, startFrame, qmul_eq, qmul_eq]
  refine Int.toNat_le_toNat (Int.floor_le_floor ?_)
  exact mul_le_mul_of_nonneg_right (by exact_mod_cast h) (framesPerStep_nonneg cfg ht sr)

/-!  Concrete inputs used by witnesses and counterexamples. -/

/-- An 88-bin dB spectrum with local maxima at bin 3 (C1, 0 dB — the global
maximum) and bin 10 (G1, −15 dB), everything else at the −80 dB floor. -/
def exSpectrum : List ℚ :=
  (List.range 88).map (fun i => if i = 3 then 0 else if i = 10 then -15 else -80)

/-- A one-frame dB matrix. -/
def exFrames : List (List ℚ) := [exSpectrum]

/-- The default configuration with a chosen detection threshold. -/
def cfgThresh (t : ℚ) : AudioAnalysisConfig := { defaultConfig with threshold_db := t }

/-- Analysis of `exFrames` (duration 1/8 s, sample rate 4096, hop 512, so
exactly one frame per step) at threshold `t`. -/
def exAnalysis (t : ℚ) : AnalysisResult :=
  analyze_with_librosa (cfgThresh t) exFrames (mkRat 1 8) 4096 120

/-- A valid configuration whose step ceiling is not a multiple of 16. -/
def cfg17 : AudioAnalysisConfig := { defaultConfig with max_steps := 17 }

/-- An analysis result with no detected notes (all-silent input). -/
def aEmpty : AnalysisResult :=
  { tempo := 120, target_steps := 16, active_notes_data := [],
    step_duration := mkRat 1 8, threshold_db := some (-40) }

/-- Audio whose tempo estimation fails. -/
def audioNoTempo : AudioData :=
  { frames := [], duration := 0, sr := 4096, tempoEstimate := .error "beat_track failed" }

/-!  The claims. -/

/-- C1 (amended): for every configuration and input, the output Pattern has
exactly 88 tracks, every track's step sequence has length `stepCount`, and
`stepCount ≤ max_steps`; `stepCount` is a multiple of 16 whenever
`max_steps` is a multiple of 16 (as stated — a multiple of 16
unconditionally — the claim fails, see the counterexample: `stepCount =
min(max_steps, roundUp16(totalSteps))` equals the raw `max_steps` when the
rounded step total exceeds it). -/
theorem C1_pattern_shape (cfg : AudioAnalysisConfig) (frames : List (List ℚ))
    (duration : ℚ) (sr : ℕ) (tempo : ℚ) :
    (build_track_data cfg (analyze_with_librosa cfg frames duration sr tempo)).tracks.length
        = 88 ∧
    (∀ t ∈ (build_track_data cfg (analyze_with_librosa cfg frames duration sr tempo)).tracks,
      t.steps.length
        = (build_track_data cfg (analyze_with_librosa cfg frames duration sr tempo)).stepCount) ∧
    (build_track_data cfg (analyze_with_librosa cfg frames duration sr tempo)).stepCount
        ≤ cfg.max_steps ∧
    (16 ∣ cfg.max_steps →
      16 ∣ (build_track_data cfg (analyze_with_librosa cfg frames duration sr tempo)).stepCount) := by
  refine ⟨?_, ?_, ?_, ?_⟩
  · simp only [build_track_data]
    by_cases hall : (builtTracks cfg (analyze_with_librosa cfg frames duration sr tempo)).all
        (fun t => t.hidden)
    · rw [if_pos hall, List.length_map, builtTracks, List.length_map]
      rfl
    · rw [if_neg hall, builtTracks, List.length_map]
      rfl
  · intro t ht
    rcases build_tracks_fields cfg _ t ht with ⟨note, _, hsteps, _⟩
    rw [hsteps, List.length_map, List.length_range]
    rfl
  · show targetSteps cfg duration tempo ≤ cfg.max_steps
    exact min_le_left _ _
  · intro hdvd
    show 16 ∣ targetSteps cfg duration tempo
    rw [targetSteps]
    rcases le_total cfg.max_steps
        ((((⌈qdiv duration (stepDuration tempo)⌉).toNat + 15) / 16) * 16) with h | h
    · rw [min_eq_left h]
      exact hdvd
    · rw [min_eq_right h]
      exact dvd_mul_left 16 _

/-- C1 witness: the amended statement, instantiated on concrete input
(zero-length audio, default configuration). -/
theorem C1_pattern_shape_witness :
    (build_track_data defaultConfig (analyze_with_librosa defaultConfig [] 0 4096 120)).tracks.length
        = 88 ∧
    (build_track_data defaultConfig
        (analyze_with_librosa defaultConfig [] 0 4096 120)).tracks.headI.steps.length
      = (build_track_data defaultConfig (analyze_with_librosa defaultConfig [] 0 4096 120)).stepCount ∧
    (build_track_data defaultConfig (analyze_with_librosa defaultConfig [] 0 4096 120)).stepCount
        ≤ defaultConfig.max_steps ∧
    16 ∣ (build_track_data defaultConfig (analyze_with_librosa defaultConfig [] 0 4096 120)).stepCount := by
  obtain ⟨h1, h2, h3, h4⟩ := C1_pattern_shape defaultConfig [] 0 4096 120
  exact ⟨h1, h2 _ (by decide), h3, h4 (by decide)⟩

/-- C1 counterexample: `max_steps = 17` passes validation, yet on a 2.5 s
input at 120 BPM (20 sixteenth-note steps, rounded up to 32) the output's
`stepCount` is `min(17, 32) = 17`, which is not a multiple of 16. -/
theorem C1_counterexample :
    (validate cfg17 true true).isOk = true ∧
    (build_track_data cfg17 (analyze_with_librosa cfg17 [] (mkRat 5 2) 4096 120)).stepCount = 17 ∧
    ¬ 16 ∣ (build_track_data cfg17 (analyze_with_librosa cfg17 [] (mkRat 5 2) 4096 120)).stepCount := by decide

/-- C2 (amended): for the same input and otherwise identical configuration,
increasing `thresholdDb` within 10–80 never DEcreases the total number of
true steps across all 88 tracks.  (The claim's direction is reversed: the
absolute cutoff is `globalMax - thresholdDb`, so a larger `thresholdDb`
lowers the cutoff and admits at least as many peaks.) -/
theorem C2_threshold_monotone (cfg : AudioAnalysisConfig) (frames : List (List ℚ))
    (duration : ℚ) (sr : ℕ) (tempo : ℚ) (t₁ t₂ : ℚ)
    (h₁ : 10 ≤ t₁) (h₁₂ : t₁ ≤ t₂) (h₂ : t₂ ≤ 80) :
    totalTrueSteps (build_track_data { cfg with threshold_db := t₁ }
        (analyze_with_librosa { cfg with threshold_db := t₁ } frames duration sr tempo))
      ≤ totalTrueSteps (build_track_data { cfg with threshold_db := t₂ }
        (analyze_with_librosa { cfg with threshold_db := t₂ } frames duration sr tempo)) := by
  rw [totalTrueSteps_build, totalTrueSteps_build]
  refine sum_map_le _ _ _ (fun note _ => ?_)
  refine countTrue_map_le (fun s hs => ?_) _
  rw [activeB_iff] at hs ⊢
  rw [analyze_memAct] at hs ⊢
  obtain ⟨hproc, b, hb, hbn⟩ := hs
  refine ⟨hproc, b, ?_, hbn⟩
  rw [mem_findPeaks] at hb ⊢
  refine ⟨hb.1, le_trans ?_ hb.2⟩
  rw [qsub_eq, qsub_eq]
  exact sub_le_sub_left h₁₂ _

/-- C2 witness: the amended monotone statement at concrete thresholds 10
and 20 on the concrete one-frame spectrum. -/
theorem C2_threshold_monotone_witness :
    totalTrueSteps (build_track_data (cfgThresh 10)
        (analyze_with_librosa (cfgThresh 10) exFrames (mkRat 1 8) 4096 120))
      ≤ totalTrueSteps (build_track_data (cfgThresh 20)
        (analyze_with_librosa (cfgThresh 20) exFrames (mkRat 1 8) 4096 120)) :=
  C2_threshold_monotone defaultConfig exFrames (mkRat 1 8) 4096 120 10 20
    (by decide) (by decide) (by decide)

set_option maxRecDepth 100000 in
/-- C2 counterexample: on `exFrames`, raising `thresholdDb` from 10 to 20
lowers the cutoff from −10 dB to −20 dB, so the −15 dB peak at G1 now
passes: the total number of true steps INcreases from 1 to 2, refuting
"never increases". -/
theorem C2_counterexample :
    totalTrueSteps (build_track_data (cfgThresh 10) (exAnalysis 10)) = 1 ∧
    totalTrueSteps (build_track_data (cfgThresh 20) (exAnalysis 20)) = 2 ∧
    ¬ totalTrueSteps (build_track_data (cfgThresh 20) (exAnalysis 20))
        ≤ totalTrueSteps (build_track_data (cfgThresh 10) (exAnalysis 10)) := by
  decide

/-- C3: every track of every output pattern has its volume in `[-40, 0]`,
whatever the recorded magnitudes are and whichever normalization branch
(dB-relative, `threshold_db < 0`, or amplitude-relative) computed it:
detected tracks are clamped by `max(-40, min(0, ·))`, undetected tracks get
the constant `-5`. -/
theorem C3_volume_clamped (cfg : AudioAnalysisConfig) (a : AnalysisResult) :
    ∀ t ∈ (build_track_data cfg a).tracks, -40 ≤ t.volume ∧ t.volume ≤ 0 := by
  intro t ht
  rcases build_tracks_fields cfg a t ht with ⟨note, _, _, hvol⟩
  rw [hvol]
  exact buildTrack_volume_range cfg a.threshold_db a.target_steps a.active_notes_data note

/-- C3 witness: the clamp holds on the C4 track of a pattern whose only
activation carries the extreme magnitude 999999 (far outside nominal
range), on the amplitude-relative branch (`threshold_db` absent). -/
theorem C3_volume_clamped_witness :
    -40 ≤ ((build_track_data defaultConfig
        { tempo := 120, target_steps := 16,
          active_notes_data := [("C4", ⟨[0], [999999]⟩)],
          step_duration := mkRat 1 8, threshold_db := none }).tracks.getD 48 default).volume ∧
    ((build_track_data defaultConfig
        { tempo := 120, target_steps := 16,
          active_notes_data := [("C4", ⟨[0], [999999]⟩)],
          step_duration := mkRat 1 8, threshold_db := none }).tracks.getD 48 default).volume ≤ 0 :=
  C3_volume_clamped defaultConfig
    { tempo := 120, target_steps := 16,
      active_notes_data := [("C4", ⟨[0], [999999]⟩)],
      step_duration := mkRat 1 8, threshold_db := none } _ (by decide)

set_option maxRecDepth 100000 in
/-- C4: whenever every one of the 88 built tracks is hidden, the fallback
yields exactly the built tracks with visibility forced on for the MIDI
48–72 band (C3–C5, the two octaves around C4) and every other field
unchanged; for an empty activation dict (all-silent input) no step is true
anywhere, yet the band tracks end up visible.  The band is the contiguous
25-note slice of `PIANO_NOTES` from C5 down to C3. -/
theorem C4_fallback_band (cfg : AudioAnalysisConfig) (a : AnalysisResult) :
    ((builtTracks cfg a).all (fun t => t.hidden) = true →
      (build_track_data cfg a).tracks = (builtTracks cfg a).map applyFallback ∧
      ∀ t ∈ builtTracks cfg a,
        (applyFallback t = t ∨ applyFallback t = { t with hidden := false }) ∧
        (applyFallback t).steps = t.steps ∧
        (applyFallback t).volume = t.volume ∧
        (applyFallback t).name = t.name ∧
        ((applyFallback t).hidden = false ↔ inFallbackBand t.name = true)) ∧
    (a.active_notes_data = [] →
      ∀ t ∈ (build_track_data cfg a).tracks,
        (∀ b ∈ t.steps, b = false) ∧
        (t.hidden = false ↔ inFallbackBand t.name = true)) ∧
    (∀ n ∈ PIANO_NOTES,
      (inFallbackBand n = true ↔ n ∈ (PIANO_NOTES.drop 36).take 25)) := by
  have hbuilt_hidden : a.active_notes_data = [] →
      ∀ t ∈ builtTracks cfg a, t.hidden = true ∧ t.steps = List.replicate a.target_steps false := by
    intro ha t ht
    rw [builtTracks] at ht
    rcases List.mem_map.1 ht with ⟨note, _, rfl⟩
    rw [ha]
    constructor
    · simp [buildTrack, lookupAct]
    · simp [buildTrack, lookupAct]
  refine ⟨?_, ?_, ?_⟩
  · intro hall
    constructor
    · simp only [build_track_data]
      rw [if_pos hall]
    · intro t ht
      have hhid : t.hidden = true := List.all_eq_true.1 hall t ht
      refine ⟨applyFallback_cases t, applyFallback_steps t, applyFallback_volume t,
        applyFallback_name t, ?_⟩
      rw [applyFallback_hidden_iff hhid, inFallbackBand_iff]
  · intro ha t ht
    have hall : (builtTracks cfg a).all (fun t => t.hidden) = true :=
      List.all_eq_true.2 (fun t ht => (hbuilt_hidden ha t ht).1)
    simp only [build_track_data] at ht
    rw [if_pos hall] at ht
    rcases List.mem_map.1 ht with ⟨t₀, ht₀, rfl⟩
    obtain ⟨hhid, hsteps⟩ := hbuilt_hidden ha t₀ ht₀
    refine ⟨?_, ?_⟩
    · intro b hb
      rw [applyFallback_steps, hsteps] at hb
      exact List.eq_of_mem_replicate hb
    · rw [applyFallback_name, applyFallback_hidden_iff hhid, inFallbackBand_iff]
  · decide

/-- C4 witness: on the concrete empty activation dict, the C4 track
(index 48, in the band) of the final pattern has only false steps and is
visible, as the claim requires. -/
theorem C4_fallback_band_witness :
    (∀ b ∈ ((build_track_data defaultConfig aEmpty).tracks.getD 48 default).steps, b = false) ∧
    (((build_track_data defaultConfig aEmpty).tracks.getD 48 default).hidden = false ↔
      inFallbackBand ((build_track_data defaultConfig aEmpty).tracks.getD 48 default).name = true) :=
  (C4_fallback_band defaultConfig aEmpty).2.1 rfl _ (by decide)

/-- C5: a supplied positive BPM override is returned by tempo detection
unchanged, independently of the audio's tempo estimate, and the resulting
pattern's `bpm` field is the override rounded to an integer (Python
`round`, half-to-even). -/
theorem C5_bpm_override (cfg : AudioAnalysisConfig) (b : ℚ) (est : Except String ℚ)
    (frames : List (List ℚ)) (duration : ℚ) (sr : ℕ)
    (hov : cfg.bpm_override = some b) (hpos : 0 < b) :
    detect_tempo cfg est = b ∧
    (∀ est' : Except String ℚ, detect_tempo cfg est' = b) ∧
    (build_track_data cfg
        (analyze_with_librosa cfg frames duration sr (detect_tempo cfg est))).bpm
      = pyRoundHalfEven b := by
  have hdet : ∀ est' : Except String ℚ, detect_tempo cfg est' = b := by
    intro est'
    rw [detect_tempo, hov]
    exact if_neg hpos.ne'
  refine ⟨hdet est, hdet, ?_⟩
  show pyRoundHalfEven (detect_tempo cfg est) = pyRoundHalfEven b
  rw [hdet est]

/-- C5 witness: override 140 yields `detect_tempo = 140` (even when the
estimator fails) and a pattern `bpm` of exactly 140. -/
theorem C5_bpm_override_witness :
    detect_tempo { defaultConfig with bpm_override := some 140 } (.error "x") = 140 ∧
    (build_track_data { defaultConfig with bpm_override := some 140 }
        (analyze_with_librosa { defaultConfig with bpm_override := some 140 } [] 0 4096
          (detect_tempo { defaultConfig with bpm_override := some 140 } (.error "x")))).bpm
      = 140 := by
  obtain ⟨h1, _, h3⟩ := C5_bpm_override { defaultConfig with bpm_override := some 140 }
    140 (.error "x") [] 0 4096 rfl (by decide)
  exact ⟨h1, h3.trans (by decide)⟩

/-- C6: with no override, a failing tempo estimate yields exactly 120 BPM
— `detect_tempo` is total, so the failure is absorbed; the conversion
pipeline still returns a pattern (`Except.ok`) for such audio. -/
theorem C6_tempo_fail_soft (cfg : AudioAnalysisConfig) (e : String) (audio : AudioData)
    (bp pp : Bool) (hov : cfg.bpm_override = none)
    (hest : audio.tempoEstimate = .error e)
    (hval : (validate cfg bp pp).isOk = true) :
    detect_tempo cfg audio.tempoEstimate = 120 ∧
    ∃ p : Pattern, convert cfg bp pp (.ok audio) = .ok p := by
  constructor
  · rw [detect_tempo, hov, hest]
    rfl
  · cases hv : validate cfg bp pp with
    | error err =>
        rw [hv] at hval
        exact absurd hval (by simp [Except.isOk, Except.toBool])
    | ok u =>
        cases u
        exact ⟨_, by rw [convert.eq_def, hv]⟩

/-- C6 witness: the fail-soft behaviour on concrete audio whose estimator
fails. -/
theorem C6_tempo_fail_soft_witness :
    detect_tempo defaultConfig audioNoTempo.tempoEstimate = 120 ∧
    ∃ p : Pattern, convert defaultConfig true true (.ok audioNoTempo) = .ok p :=
  C6_tempo_fail_soft defaultConfig "beat_track failed" audioNoTempo true true rfl rfl
    (by decide)

set_option maxHeartbeats 1000000 in
/-- C7: configuration validation fails exactly on an unsupported method, an
unavailable back-end, `max_steps` outside [16, 1024], or `threshold_db`
outside [10, 80]; a validation error makes `convert` return that error
before the audio-load result is ever inspected, and a configuration that
passes validation proceeds to audio loading and the analysis pipeline. -/
theorem C7_validate_characterization (cfg : AudioAnalysisConfig) (bp pp : Bool)
    (la : Except String AudioData) :
    ((validate cfg bp pp).isOk = false ↔
      (cfg.method ∉ (["librosa", "basic_pitch", "pop2piano"] : List String) ∨
       (cfg.method = "basic_pitch" ∧ bp = false) ∨
       (cfg.method = "pop2piano" ∧ pp = false) ∨
       cfg.max_steps < 16 ∨ 1024 < cfg.max_steps ∨
       cfg.threshold_db < 10 ∨ 80 < cfg.threshold_db)) ∧
    (∀ e, validate cfg bp pp = .error e → convert cfg bp pp la = .error e) ∧
    ((validate cfg bp pp).isOk = true → ∀ audio, la = .ok audio →
      convert cfg bp pp la = .ok (build_track_data cfg
        (analyze_with_librosa cfg audio.frames audio.duration audio.sr
          (detect_tempo cfg audio.tempoEstimate)))) := by
  refine ⟨?_, ?_, ?_⟩
  · rw [validate]
    split_ifs with h1 h2 h3 h4 h5 <;> simp only [Except.isOk] <;> tauto
  · intro e he
    rw [convert.eq_def, he]
  · intro hok audio hla
    cases hv : validate cfg bp pp with
    | error err =>
        rw [hv] at hok
        exact absurd hok (by simp [Except.isOk, Except.toBool])
    | ok u =>
        cases u
        rw [convert.eq_def, hv, hla]

/-- C7 witness: a too-small threshold (5) fails validation and aborts
`convert` with the bounds message, before touching the audio; the default
configuration passes and the pipeline runs. -/
theorem C7_validate_characterization_witness :
    (validate { defaultConfig with threshold_db := 5 } true true).isOk = false ∧
    convert { defaultConfig with threshold_db := 5 } true true (.ok audioNoTempo)
      = .error "threshold_db must be between 10 and 80" ∧
    convert defaultConfig true true (.ok audioNoTempo)
      = .ok (build_track_data defaultConfig
          (analyze_with_librosa defaultConfig audioNoTempo.frames audioNoTempo.duration
            audioNoTempo.sr (detect_tempo defaultConfig audioNoTempo.tempoEstimate))) := by
  obtain ⟨hiff, herr, hok⟩ := C7_validate_characterization
    { defaultConfig with threshold_db := 5 } true true (.ok audioNoTempo)
  obtain ⟨_, _, hok'⟩ := C7_validate_characterization defaultConfig true true
    (.ok audioNoTempo)
  exact ⟨hiff.2 (by decide), herr _ (by rfl), hok' (by decide) audioNoTempo rfl⟩

/-- C8: every magnitude the spectral quantizer records is at or above the
absolute cutoff `globalMax - thresholdMargin`, every recorded step's start
frame lies inside the available frames, and once a step's frame range
starts at or beyond the available frames no later step is recorded. -/
theorem C8_quantizer_bounds (cfg : AudioAnalysisConfig) (frames : List (List ℚ))
    (duration : ℚ) (sr : ℕ) (tempo : ℚ) (htempo : 0 < tempo) :
    (∀ note d,
      lookupAct (analyze_with_librosa cfg frames duration sr tempo).active_notes_data note
          = some d →
        (∀ g ∈ d.magnitudes, qsub (matMax frames) cfg.threshold_db ≤ g) ∧
        (∀ s ∈ d.steps, startFrame cfg tempo sr s < frames.length)) ∧
    (∀ s₀ s : ℕ, frames.length ≤ startFrame cfg tempo sr s₀ → s₀ ≤ s →
      ∀ note d,
        lookupAct (analyze_with_librosa cfg frames duration sr tempo).active_notes_data note
            = some d → s ∉ d.steps) := by
  have hsteps : ∀ note d,
      lookupAct (analyze_with_librosa cfg frames duration sr tempo).active_notes_data note
          = some d →
      ∀ s ∈ d.steps, startFrame cfg tempo sr s < frames.length := by
    intro note d hl s hs
    have hmem : memAct (analyze_with_librosa cfg frames duration sr tempo).active_notes_data
        note s := ⟨d, hl, hs⟩
    rw [analyze_memAct] at hmem
    have hp := hmem.1
    rw [processedSteps] at hp
    simpa using List.mem_takeWhile_imp hp
  refine ⟨fun note d hl => ⟨?_, hsteps note d hl⟩, ?_⟩
  · have hGE : magsGE
        (analyze_with_librosa cfg frames duration sr tempo).active_notes_data
        (qsub (matMax frames) cfg.threshold_db) :=
      magsGE_quantLoop cfg frames tempo sr _ _ (fun e he => absurd he (List.not_mem_nil e))
    exact hGE (note, d) (lookupAct_mem hl)
  · intro s₀ s hs₀ hss note d hl hmem
    have h1 := hsteps note d hl s hmem
    have h2 : startFrame cfg tempo sr s₀ ≤ startFrame cfg tempo sr s :=
      startFrame_mono cfg htempo.le sr hss
    omega

set_option maxRecDepth 100000 in
/-- C8 witness: on the concrete one-frame matrix at threshold 20, the
magnitude recorded for C1 (0 dB) is above the −20 dB cutoff and the
recorded step 0 starts inside the single available frame. -/
theorem C8_quantizer_bounds_witness :
    qsub (matMax exFrames) (cfgThresh 20).threshold_db ≤ 0 ∧
    startFrame (cfgThresh 20) 120 4096 0 < exFrames.length := by
  have h := C8_quantizer_bounds (cfgThresh 20) exFrames (mkRat 1 8) 4096 120 (by decide)
  have h2 := (h.1 "C1" ⟨[0], [0]⟩ (by decide))
  exact ⟨h2.1 0 (by decide), h2.2 0 (by decide)⟩

/-- `buildTrack` depends on the activation dict only through the lookup of
its own note name. -/
theorem buildTrack_congr (cfg : AudioAnalysisConfig) (thr : Option ℚ) (target : ℕ)
    {m₁ m₂ : ActivationMap} (note : String)
    (h : lookupAct m₁ note = lookupAct m₂ note) :
    buildTrack cfg thr target m₁ note = buildTrack cfg thr target m₂ note := by
  rw [buildTrack.eq_def, buildTrack.eq_def, h]

/-- C9: the pattern builder matches activation keys against the 88
canonical names by exact string equality — an entry under a key that is not
character-for-character one of `PIANO_NOTES` (e.g. a Unicode-sharp
spelling) contributes nothing to any track of the output, and a canonical
note with no activation entry stays hidden with an all-false step sequence
and default volume −5. -/
theorem C9_unmatched_key (cfg : AudioAnalysisConfig) (a : AnalysisResult) (k : String)
    (d : ActivationData) (hk : k ∉ PIANO_NOTES) :
    build_track_data cfg { a with active_notes_data := (k, d) :: a.active_notes_data }
      = build_track_data cfg a ∧
    (∀ note ∈ PIANO_NOTES, lookupAct a.active_notes_data note = none →
      (buildTrack cfg a.threshold_db a.target_steps a.active_notes_data note).hidden = true ∧
      (buildTrack cfg a.threshold_db a.target_steps a.active_notes_data note).steps
        = List.replicate a.target_steps false ∧
      (buildTrack cfg a.threshold_db a.target_steps a.active_notes_data note).volume = -5) := by
  have hbt : ∀ note ∈ PIANO_NOTES,
      buildTrack cfg a.threshold_db a.target_steps ((k, d) :: a.active_notes_data) note
        = buildTrack cfg a.threshold_db a.target_steps a.active_notes_data note := by
    intro note hn
    have hk' : k ≠ note := fun e => hk (e ▸ hn)
    exact buildTrack_congr cfg a.threshold_db a.target_steps note
      (by rw [lookupAct_cons, if_neg hk'])
  constructor
  · have htr : builtTracks cfg { a with active_notes_data := (k, d) :: a.active_notes_data }
        = builtTracks cfg a := by
      rw [builtTracks, builtTracks]
      exact List.map_congr_left hbt
    rw [build_track_data, build_track_data, htr]
  · intro note hn hnone
    refine ⟨?_, ?_, ?_⟩ <;> simp only [buildTrack, hnone]

/-- C9 witness: an activation recorded under `"C♯4"` (Unicode sharp) is
ignored entirely — the output equals the output for an empty dict — and the
canonical `"C#4"` track stays hidden, all-false, at volume −5. -/
theorem C9_unmatched_key_witness :
    build_track_data defaultConfig
        { aEmpty with active_notes_data := [("C♯4", ⟨[0], [0]⟩)] }
      = build_track_data defaultConfig aEmpty ∧
    (buildTrack defaultConfig aEmpty.threshold_db aEmpty.target_steps
        aEmpty.active_notes_data "C#4").hidden = true ∧
    (buildTrack defaultConfig aEmpty.threshold_db aEmpty.target_steps
        aEmpty.active_notes_data "C#4").steps = List.replicate 16 false ∧
    (buildTrack defaultConfig aEmpty.threshold_db aEmpty.target_steps
        aEmpty.active_notes_data "C#4").volume = -5 := by
  obtain ⟨h1, h2⟩ := C9_unmatched_key defaultConfig aEmpty "C♯4" ⟨[0], [0]⟩ (by decide)
  obtain ⟨ha, hb, hc⟩ := h2 "C#4" (by decide) rfl
  exact ⟨h1, ha, hb, hc⟩

/-- C10: a present-but-zero BPM override is falsy in the source's guard, so
tempo detection ignores it and behaves exactly as with no override:
estimates pass through, failures fall back to 120 — the zero override is
never returned. -/
theorem C10_zero_override (cfg : AudioAnalysisConfig) (est : Except String ℚ)
    (hov : cfg.bpm_override = some 0) :
    detect_tempo cfg est = detect_tempo { cfg with bpm_override := none } est ∧
    (∀ e : String, detect_tempo cfg (.error e) = 120) ∧
    (∀ t : ℚ, detect_tempo cfg (.ok t) = t) := by
  refine ⟨?_, fun e => ?_, fun t => ?_⟩ <;>
    simp [detect_tempo, hov, detectFromAudio]

/-- C10 witness: override 0 with a failing estimator gives 120 (not 0), and
with a successful estimate 140 gives 140. -/
theorem C10_zero_override_witness :
    detect_tempo { defaultConfig with bpm_override := some 0 } (.error "x")
      = detect_tempo defaultConfig (.error "x") ∧
    detect_tempo { defaultConfig with bpm_override := some 0 } (.error "x") = 120 ∧
    detect_tempo { defaultConfig with bpm_override := some 0 } (.ok 140) = 140 := by
  have h := C10_zero_override { defaultConfig with bpm_override := some 0 } (.error "x") rfl
  have h' := C10_zero_override { defaultConfig with bpm_override := some 0 } (.ok 140) rfl
  exact ⟨h.1, h.2.1 "x", h'.2.2 140⟩

end AudioToBeats
